import Mathlib

/-!
# Verification of the P2P file-sharer core (Go) against its specification

Shallow embedding of the connection/protocol/transfer engine of the
`P2P-File-Sharer-In-Go` repository.  Go strings are modelled as lists of
bytes (`List Nat`, values < 256); Go maps keyed by strings are modelled
as lists with the map operations acting by key; pointer mutation of a
registry entry is modelled by updating the entry in place in the list.
Wall-clock times are `Nat` milliseconds supplied as parameters; OS
effects (file system, handles) are explicit state; functions of the
environment (SHA-256, write success, reliable-send success, generated
ids) are parameters of the embedding.  Locks are elided: every embedded
operation is the body of one critical section / handler, executed
atomically, which is exactly the granularity the Go code serializes.

Embedded source files (package `network` unless noted):
* `protocol.go` / `part_005` — `Message`, `Marshal`, `escapeJSON`,
  `RequiresAck`, `GetBinaryData`, base64 codec (Go `encoding/base64`
  std alphabet), JSON line decoding (Go `encoding/json` string lexer,
  restricted to the object layout `Marshal` emits).
* `connection.go` — `isPathSafe`, `canInitiateTransfer`,
  `handleGetCommand`, `handlePutCommand`, `handleFileData`,
  `handleFileEnd`, `handleAck`, `SendMessage`, `addPendingMessage`,
  `monitorPendingMessages`, `removePendingMessage`.
* `part_006` — `App.AddTransfer` / `App.RemoveTransfer`.
* `part_007`/`part_008` — `CommandParser.handleCancelTransfer`.
* `transfer.go` — `FileTransfer`, `NewFileTransfer`.
-/

namespace ShareGo

/-! ## Byte-string utilities (Go `strings` / `path/filepath` helpers) -/

/-- Go `strings.Split(s, sep)` for a one-byte separator.
`splitOnByte sep s` always returns at least one (possibly empty) part. -/
def splitOnByte (sep : Nat) : List Nat → List (List Nat)
  | [] => [[]]
  | b :: rest =>
    match splitOnByte sep rest with
    | [] => if b = sep then [[], []] else [[b]]
    | h :: t => if b = sep then [] :: h :: t else (b :: h) :: t

/-- Go `strings.HasPrefix(s, pre)` on byte strings. -/
def hasPrefixB : List Nat → List Nat → Bool
  | _, [] => true
  | [], _ :: _ => false
  | b :: bs, p :: ps => b == p && hasPrefixB bs ps

/-- Consume an expected literal byte sequence from the front of the input,
returning the remainder (used by the line decoder). -/
def expectBytes : List Nat → List Nat → Option (List Nat)
  | [], l => some l
  | _ :: _, [] => none
  | p :: ps, b :: bs => if p = b then expectBytes ps bs else none

/-- Decimal rendering of a natural number, as ASCII bytes
(Go `fmt.Sprintf` `%d` for the non-negative values that occur here). -/
def natDec (n : Nat) : List Nat := (Nat.toDigits 10 n).map Char.toNat

/-! ## Message model (`protocol.go` / `part_005`)

Go `Message` struct: `Type`, `Data`, `Binary`, `ID` (strings/bool), plus
`RetryCount` in the `part_005` variant.  The wall-clock `Timestamp`
field is not modelled (no claim mentions it). -/

structure Message where
  type : List Nat
  data : List Nat
  binary : Bool := false
  id : List Nat := []
  retryCount : Nat := 0
  deriving Repr, DecidableEq

-- Message type constants (ASCII byte strings).
def MsgTypeHandshake : List Nat := [72, 65, 78, 68, 83, 72, 65, 75, 69]
def MsgTypeCommand : List Nat := [67, 79, 77, 77, 65, 78, 68]
def MsgTypeCommandResult : List Nat := [67, 79, 77, 77, 65, 78, 68, 82, 69, 83, 85, 76, 84]
def MsgTypeFileStart : List Nat := [70, 73, 76, 69, 83, 84, 65, 82, 84]
def MsgTypeFileData : List Nat := [70, 73, 76, 69, 68, 65, 84, 65]
def MsgTypeFileEnd : List Nat := [70, 73, 76, 69, 69, 78, 68]
def MsgTypeError : List Nat := [69, 82, 82, 79, 82]
def MsgTypeProgress : List Nat := [80, 82, 79, 71, 82, 69, 83, 83]
def MsgTypeACK : List Nat := [65, 67, 75]
def MsgTypeMessage : List Nat := [77, 69, 83, 83, 65, 71, 69]
def MsgTypePing : List Nat := [80, 73, 78, 71]
def MsgTypePong : List Nat := [80, 79, 78, 71]

/-- `Message.RequiresAck` (`part_005` lines 92-97): true exactly for
FILESTART, FILEEND, COMMAND, COMMANDRESULT. -/
def Message.requiresAck (m : Message) : Bool :=
  m.type == MsgTypeFileStart ||
  m.type == MsgTypeFileEnd ||
  m.type == MsgTypeCommand ||
  m.type == MsgTypeCommandResult

/-- `Message.Clone` (`part_005`): a value copy. -/
def Message.clone (m : Message) : Message := m

/-- `Message.IncrementRetry` (`part_005`). -/
def Message.incrementRetry (m : Message) : Message :=
  { m with retryCount := m.retryCount + 1 }

/-! ## Base64 codec (Go `encoding/base64` StdEncoding)

`EncodeToString` over the standard alphabet with `=` padding;
`DecodeString` skips `\r`/`\n`, requires groups of four alphabet
characters with padding only in the final group, and (like the
non-strict Go decoder) does not check the unused trailing bits. -/

def b64Alphabet : List Nat :=
  [65, 66, 67, 68, 69, 70, 71, 72, 73, 74, 75, 76, 77, 78, 79, 80,
   81, 82, 83, 84, 85, 86, 87, 88, 89, 90, 97, 98, 99, 100, 101, 102,
   103, 104, 105, 106, 107, 108, 109, 110, 111, 112, 113, 114, 115, 116,
   117, 118, 119, 120, 121, 122, 48, 49, 50, 51, 52, 53, 54, 55, 56, 57,
   43, 47]

/-- The alphabet character for a six-bit value. -/
def b64Char (n : Nat) : Nat := b64Alphabet.getD n 0

/-- The six-bit value of an alphabet character (`none` for a byte
outside the alphabet, e.g. `=` or an arbitrary invalid byte). -/
def b64Value (c : Nat) : Option Nat := b64Alphabet.findIdx? (fun a => a == c)

/-- Base64-encode a byte string (groups of three bytes to four
characters, `=`-padded tail). -/
def base64Encode : List Nat → List Nat
  | [] => []
  | [a] => [b64Char (a / 4), b64Char (a % 4 * 16), 61, 61]
  | [a, b] => [b64Char (a / 4), b64Char (a % 4 * 16 + b / 16), b64Char (b % 16 * 4), 61]
  | a :: b :: d :: rest =>
    b64Char (a / 4) :: b64Char (a % 4 * 16 + b / 16) ::
    b64Char (b % 16 * 4 + d / 64) :: b64Char (d % 64) :: base64Encode rest

/-- Decode groups of four base64 characters; `61` is `=`. -/
def base64DecodeGroups : List Nat → Option (List Nat)
  | [] => some []
  | c1 :: c2 :: c3 :: c4 :: rest =>
    match b64Value c1, b64Value c2 with
    | some s1, some s2 =>
      if c3 = 61 then
        if c4 = 61 ∧ rest = [] then some [s1 * 4 + s2 / 16] else none
      else
        match b64Value c3 with
        | some s3 =>
          if c4 = 61 then
            if rest = [] then some [s1 * 4 + s2 / 16, s2 % 16 * 16 + s3 / 4] else none
          else
            match b64Value c4 with
            | some s4 =>
              (base64DecodeGroups rest).map
                (fun bs => (s1 * 4 + s2 / 16) :: (s2 % 16 * 16 + s3 / 4) :: (s3 % 4 * 64 + s4) :: bs)
            | none => none
        | none => none
    | _, _ => none
  | _ => none

/-- Go `base64.StdEncoding.DecodeString`: newline bytes are skipped,
anything else invalid fails. -/
def base64Decode (l : List Nat) : Option (List Nat) :=
  base64DecodeGroups (l.filter (fun c => !(c == 10 || c == 13)))

/-- `Message.GetBinaryData` (`part_005` lines 70-75): raw bytes when the
binary flag is still set, otherwise a base64 decode of the data. -/
def Message.getBinaryData (m : Message) : Option (List Nat) :=
  if m.binary then some m.data else base64Decode m.data

/-! ## JSON line codec (`protocol.go` lines 35-71)

`Marshal` hand-builds one JSON object; `escapeJSON` is five successive
`strings.ReplaceAll` passes.  The decoder models Go `encoding/json`
`Unmarshal` restricted to the exact object layout `Marshal` emits,
with a faithful JSON string-literal lexer: escape sequences are
decoded and a raw control byte (< 0x20) inside a string is rejected,
exactly as Go's lexer rejects it. -/

/-- `strings.ReplaceAll(s, string(tgt), repl)` for a one-byte target. -/
def replaceByte (tgt : Nat) (repl : List Nat) (l : List Nat) : List Nat :=
  l.flatMap (fun b => if b = tgt then repl else [b])

/-- `escapeJSON` (`protocol.go` lines 64-71): replace `\` then `"` then
`\n`, `\r`, `\t`, in that order. -/
def escapeJSON (s : List Nat) : List Nat :=
  replaceByte 9 [92, 116]
    (replaceByte 13 [92, 114]
      (replaceByte 10 [92, 110]
        (replaceByte 34 [92, 34]
          (replaceByte 92 [92, 92] s))))

-- Fixed skeleton pieces of the object Marshal writes.
def jsonTypeKey : List Nat := [123, 34, 116, 121, 112, 101, 34, 58, 34]
def jsonDataKey : List Nat := [34, 44, 34, 100, 97, 116, 97, 34, 58, 34]
def jsonIdKey : List Nat := [44, 34, 105, 100, 34, 58, 34]
def jsonBinaryTrue : List Nat := [44, 34, 98, 105, 110, 97, 114, 121, 34, 58, 116, 114, 117, 101]

/-- `Message.Marshal` (`protocol.go` lines 35-62): a binary payload is
base64-encoded and the binary flag cleared, then the object is written
as `type`, escaped `data`, optional `id`, optional `binary` (the last
is dead code: the flag was just cleared).  The type and id fields are
written without escaping. -/
def Message.marshal (m : Message) : List Nat :=
  let m' := if m.binary then
    { m with data := base64Encode m.data, binary := false } else m
  jsonTypeKey ++ m'.type ++ jsonDataKey ++ escapeJSON m'.data ++ [34] ++
  (if m'.id ≠ [] then jsonIdKey ++ m'.id ++ [34] else []) ++
  (if m'.binary then jsonBinaryTrue else []) ++ [125]

/-- Decode a JSON escape character (the second byte of a `\x` pair), as
Go's `encoding/json` string lexer does.  `\u` hex escapes never occur
in `Marshal` output and are not modelled. -/
def jsonEscChar (e : Nat) : Option Nat :=
  if e = 34 then some 34        -- \"
  else if e = 92 then some 92   -- backslash
  else if e = 47 then some 47   -- \/
  else if e = 98 then some 8    -- \b
  else if e = 102 then some 12  -- \f
  else if e = 110 then some 10  -- \n
  else if e = 114 then some 13  -- \r
  else if e = 116 then some 9   -- \t
  else none

/-- Lex a JSON string literal body up to its closing quote, returning
the decoded content and the remaining input.  A raw byte below 0x20 is
rejected (Go: "invalid character ... in string literal"). -/
def lexJSONString : List Nat → Option (List Nat × List Nat)
  | [] => none
  | [b] => if b = 34 then some ([], []) else none
  | b :: e :: rest =>
    if b = 34 then some ([], e :: rest)
    else if b = 92 then
      (jsonEscChar e).bind fun c =>
        (lexJSONString rest).bind fun d => some (c :: d.1, d.2)
    else if b < 32 then none
    else (lexJSONString (e :: rest)).bind fun d => some (b :: d.1, d.2)

/-- A byte the Go JSON codec carries through a string literal without
change and without escaping: printable ASCII other than quote and
backslash.  `Marshal` writes the type and id fields unescaped, so the
round trip is stated for fields of such bytes (every message type
constant and generated id in the program satisfies this). -/
def jsonCleanByte (b : Nat) : Prop := 32 ≤ b ∧ b ≤ 126 ∧ b ≠ 34 ∧ b ≠ 92

instance (b : Nat) : Decidable (jsonCleanByte b) := by
  unfold jsonCleanByte
  infer_instance

/-- A data byte that survives `escapeJSON` + Go JSON string lexing:
printable ASCII (quote and backslash are escaped) or one of the three
escaped control bytes tab/newline/carriage-return. -/
def jsonTextByte (b : Nat) : Prop := b = 9 ∨ b = 10 ∨ b = 13 ∨ (32 ≤ b ∧ b ≤ 126)

instance (b : Nat) : Decidable (jsonTextByte b) := by
  unfold jsonTextByte
  infer_instance

/-- The single-pass character map equal to the five `ReplaceAll`
passes of `escapeJSON`. -/
def escChar (b : Nat) : List Nat :=
  if b = 92 then [92, 92]
  else if b = 34 then [92, 34]
  else if b = 10 then [92, 110]
  else if b = 13 then [92, 114]
  else if b = 9 then [92, 116]
  else [b]

/-- Decode one marshalled line back into a `Message`: the model of
`json.Unmarshal` (`connection.go` `handleMessage`, `part_005`
`Unmarshal`) on the object layout produced by `Marshal`.  A message
arriving off the wire always has `Binary = false` and
`RetryCount = 0` unless those fields are present in the JSON, and
`Marshal` never emits them. -/
def decodeLine (l : List Nat) : Option Message := do
  let r1 ← expectBytes jsonTypeKey l
  let (ty, r2) ← lexJSONString r1
  let r3 ← expectBytes (jsonDataKey.drop 1) r2
  let (dt, r4) ← lexJSONString r3
  if r4 = [125] then
    pure { type := ty, data := dt }
  else do
    let r5 ← expectBytes jsonIdKey r4
    let (i, r6) ← lexJSONString r5
    if r6 = [125] then pure { type := ty, data := dt, id := i } else none

/-! ## Path model (`path/filepath` on POSIX, and `isPathSafe`)

Paths are byte strings; `/` is byte 47, `.` is byte 46.  `cleanPath`
is Go `filepath.Clean` (lexical: drop `.` and empty components,
resolve `..` against the previous component, keep leading `..` of a
relative path, drop `..` at the root of an absolute path).
`filepath.Abs` resolves a relative path against the process working
directory, which the model passes explicitly. -/

def sepB : Nat := 47
def dotB : List Nat := [46]
def dotDotB : List Nat := [46, 46]

/-- One step of Go `filepath.Clean`'s element loop. -/
def cleanStep (isAbs : Bool) (acc : List (List Nat)) (c : List Nat) : List (List Nat) :=
  if c = [] ∨ c = dotB then acc
  else if c = dotDotB then
    if acc ≠ [] ∧ acc.getLast? ≠ some dotDotB then acc.dropLast
    else if isAbs then acc else acc ++ [dotDotB]
  else acc ++ [c]

/-- Go `filepath.Clean` on a POSIX path. -/
def cleanPath (p : List Nat) : List Nat :=
  if p = [] then dotB
  else if p.head? = some sepB then
    sepB :: List.intercalate [sepB] ((splitOnByte sepB p).foldl (cleanStep true) [])
  else
    let cs := (splitOnByte sepB p).foldl (cleanStep false) []
    if cs = [] then dotB else List.intercalate [sepB] cs

/-- Go `filepath.Join(a, b)`: empty elements are dropped, the rest are
joined with a separator and cleaned. -/
def joinPath (a b : List Nat) : List Nat :=
  if a = [] ∧ b = [] then []
  else if a = [] then cleanPath b
  else if b = [] then cleanPath a
  else cleanPath (a ++ sepB :: b)

/-- Go `filepath.Abs(p)` with the process working directory `cwd`
passed explicitly: an absolute path is cleaned, a relative one is
joined onto `cwd`. -/
def absPath (cwd p : List Nat) : List Nat :=
  if p.head? = some sepB then cleanPath p else joinPath cwd p

/-- `isPathSafe` (`connection.go` lines 26-39): join the request onto
the shared folder, make both absolute, and accept iff the absolute
base is a *string* prefix of the absolute target. -/
def isPathSafe (cwd : List Nat) (requestedPath baseFolder : List Nat) : Bool :=
  let absBase := absPath cwd baseFolder
  let targetPath := joinPath baseFolder requestedPath
  let absTarget := absPath cwd targetPath
  hasPrefixB absTarget absBase

/-- Modelled from the spec: "any resolved path escaping the shared
root" — the resolved target escapes the root iff it is neither the
root itself nor strictly below it (the root followed by a path
separator). -/
def escapesRoot (absTarget absBase : List Nat) : Bool :=
  !(absTarget == absBase || hasPrefixB absTarget (absBase ++ [sepB]))

/-! ## Transfer and registry model (`transfer.go`, `part_006`)

The Go status and direction fields are strings drawn from the closed
constant sets of `transfer.go`; they are modelled as enumerations.
An open `*os.File` is an `Option Nat` handle; closing a handle is
recorded in the app state's `closedHandles` log so that "closed exactly
once" is observable.  `App.Transfers` is `map[string]*FileTransfer`
keyed by the transfer's `Name`; it is modelled as a list of records
with the map operations acting on the `name` field, and pointer
mutation of an entry as an in-place functional update. -/

inductive TransferDir where
  | send      -- TransferTypeSend
  | receive   -- TransferTypeReceive
  deriving Repr, DecidableEq

inductive TransferStatus where
  | inProgress   -- TransferStatusInProgress
  | complete     -- TransferStatusComplete
  | failed       -- TransferStatusFailed
  | waitingAck   -- TransferStatusWaitingAck
  | paused       -- TransferStatusPaused
  deriving Repr, DecidableEq

structure FileTransfer where
  id : Nat
  name : List Nat
  dir : TransferDir          -- Go field `Type`
  status : TransferStatus
  totalSize : Nat
  bytesTransferred : Nat
  lastProgress : Nat
  checksum : List Nat
  file : Option Nat          -- open file handle, if any
  conn : Nat                 -- identity of the owning connection
  deriving Repr, DecidableEq

/-- `NewFileTransfer` (`transfer.go` lines 46-62); the id is assigned
later by `App.AddTransfer`. -/
def newFileTransfer (name : List Nat) (size : Nat) (dir : TransferDir)
    (conn : Nat) : FileTransfer :=
  { id := 0, name := name, dir := dir, status := .inProgress,
    totalSize := size, bytesTransferred := 0, lastProgress := 0,
    checksum := [], file := none, conn := conn }

structure Config where
  folder : List Nat
  cwd : List Nat            -- ambient working directory used by filepath.Abs
  readOnly : Bool
  writeOnly : Bool
  maxSize : Nat             -- megabytes; 0 = unlimited
  verify : Bool
  deriving Repr, DecidableEq

structure AppState where
  config : Config
  transfers : List FileTransfer   -- map[string]*FileTransfer keyed by name
  nextTransferId : Nat            -- App.transferID (last assigned id)
  fs : List (List Nat × List Nat) -- file path ↦ content bytes
  dirs : List (List Nat)          -- directory paths
  closedHandles : List Nat        -- log of closed file handles
  nextHandle : Nat                -- last allocated file handle
  deriving Repr, DecidableEq

/-- Map update keyed by `name` (pointer mutation of the entry the Go
map holds under that key). -/
def updateByName (l : List FileTransfer) (n : List Nat)
    (f : FileTransfer → FileTransfer) : List FileTransfer :=
  l.map (fun u => if u.name = n then f u else u)

/-- Go `a.Transfers[t.Name] = t`: replace the entry under the key if
present, else add it. -/
def mapSetByName (l : List FileTransfer) (t : FileTransfer) : List FileTransfer :=
  if l.any (fun u => u.name == t.name) then
    l.map (fun u => if u.name = t.name then t else u)
  else l ++ [t]

/-- Go `delete(a.Transfers, name)`. -/
def removeByName (l : List FileTransfer) (n : List Nat) : List FileTransfer :=
  l.filter (fun u => !(u.name == n))

/-- Map lookup by key. -/
def lookupByName (l : List FileTransfer) (n : List Nat) : Option FileTransfer :=
  l.find? (fun u => u.name == n)

/-- File-system lookup. -/
def fsLookup (fs : List (List Nat × List Nat)) (p : List Nat) : Option (List Nat) :=
  (fs.find? (fun e => e.1 == p)).map (fun e => e.2)

/-- Append bytes to an open file (the write path of `handleFileData`). -/
def fsAppend (fs : List (List Nat × List Nat)) (p : List Nat) (bs : List Nat) :
    List (List Nat × List Nat) :=
  fs.map (fun e => if e.1 = p then (e.1, e.2 ++ bs) else e)

/-- `os.Remove`. -/
def fsRemove (fs : List (List Nat × List Nat)) (p : List Nat) :
    List (List Nat × List Nat) :=
  fs.filter (fun e => !(e.1 == p))

/-- `App.AddTransfer` (`part_006` lines 56-62): increment the id
counter, assign it to the transfer, store under its name.  Returns
the stored transfer (with its assigned id) alongside the new state. -/
def addTransfer (a : AppState) (t : FileTransfer) : AppState × FileTransfer :=
  let newId := a.nextTransferId + 1
  let t' := { t with id := newId }
  ({ a with nextTransferId := newId, transfers := mapSetByName a.transfers t' }, t')

/-- `App.RemoveTransfer` (`part_006` lines 64-68). -/
def removeTransfer (a : AppState) (t : FileTransfer) : AppState :=
  { a with transfers := removeByName a.transfers t.name }

/-- `Connection.canInitiateTransfer` (`connection.go` lines 570-582):
count the registry's InProgress transfers and admit iff fewer than 3. -/
def canInitiateTransfer (a : AppState) : Bool :=
  a.transfers.countP (fun t => t.status == .inProgress) < 3

/-! ## Command handlers (`connection.go`)

Handlers return the reply `Message` (which `handleCommand` sends back
with the request's correlation id) together with the state after the
handler's synchronous body.  Environment outcomes are parameters: the
`hash` function models SHA-256 hex (`CalculateChecksum`), `reliableOk`
the outcome of `SendReliableMessage`.  The formatted `%v`/`%d` suffix
of an error text is elided where the format argument is a Go error
value not present in the model. -/

-- Reply texts (ASCII byte strings of the Go literals).
def txtGetNeedsPath : List Nat :=
  [71, 69, 84, 32, 114, 101, 113, 117, 105, 114, 101, 115, 32, 97, 32, 102, 105, 108, 101, 32, 112, 97, 116, 104]
def txtTooMany : List Nat :=
  [84, 111, 111, 32, 109, 97, 110, 121, 32, 97, 99, 116, 105, 118, 101, 32, 116, 114, 97, 110, 115, 102, 101, 114, 115, 44, 32, 112, 108, 101, 97, 115, 101, 32, 119, 97, 105, 116, 32, 102, 111, 114, 32, 99, 117, 114, 114, 101, 110, 116, 32, 116, 114, 97, 110, 115, 102, 101, 114, 115, 32, 116, 111, 32, 99, 111, 109, 112, 108, 101, 116, 101]
def txtAccessDenied : List Nat :=
  [65, 99, 99, 101, 115, 115, 32, 100, 101, 110, 105, 101, 100, 58, 32, 112, 97, 116, 104, 32, 105, 115, 32, 111, 117, 116, 115, 105, 100, 101, 32, 116, 104, 101, 32, 115, 104, 97, 114, 101, 100, 32, 102, 111, 108, 100, 101, 114]
def txtReadOnly : List Nat :=
  [84, 104, 105, 115, 32, 110, 111, 100, 101, 32, 105, 115, 32, 105, 110, 32, 114, 101, 97, 100, 45, 111, 110, 108, 121, 32, 109, 111, 100, 101, 32, 97, 110, 100, 32, 99, 97, 110, 110, 111, 116, 32, 115, 101, 110, 100, 32, 102, 105, 108, 101, 115]
def txtRestricted : List Nat :=
  [84, 104, 105, 115, 32, 102, 105, 108, 101, 32, 105, 115, 32, 114, 101, 115, 116, 114, 105, 99, 116, 101, 100, 32, 102, 111, 114, 32, 116, 114, 97, 110, 115, 102, 101, 114]
def txtFileNotFound : List Nat :=
  [70, 105, 108, 101, 32, 110, 111, 116, 32, 102, 111, 117, 110, 100, 58, 32]
def txtGetIsDir : List Nat :=
  [71, 69, 84, 32, 99, 97, 110, 110, 111, 116, 32, 116, 114, 97, 110, 115, 102, 101, 114, 32, 100, 105, 114, 101, 99, 116, 111, 114, 105, 101, 115, 44, 32, 117, 115, 101, 32, 71, 69, 84, 68, 73, 82, 32, 105, 110, 115, 116, 101, 97, 100]
def txtSizeExceeds : List Nat :=
  [70, 105, 108, 101, 32, 115, 105, 122, 101, 32, 101, 120, 99, 101, 101, 100, 115, 32, 109, 97, 120, 105, 109, 117, 109, 32, 97, 108, 108, 111, 119, 101, 100, 32, 115, 105, 122, 101, 32, 111, 102, 32]
def txtMB : List Nat := [32, 77, 66]
def txtSendStartFailed : List Nat :=
  [70, 97, 105, 108, 101, 100, 32, 116, 111, 32, 115, 101, 110, 100, 32, 102, 105, 108, 101, 32, 115, 116, 97, 114, 116, 58, 32]
def txtStartingTransfer : List Nat :=
  [83, 116, 97, 114, 116, 105, 110, 103, 32, 102, 105, 108, 101, 32, 116, 114, 97, 110, 115, 102, 101, 114, 58, 32]
def txtPutNeedsPath : List Nat :=
  [80, 85, 84, 32, 114, 101, 113, 117, 105, 114, 101, 115, 32, 97, 32, 102, 105, 108, 101, 32, 112, 97, 116, 104]
def txtWriteOnly : List Nat :=
  [84, 104, 105, 115, 32, 110, 111, 100, 101, 32, 105, 115, 32, 105, 110, 32, 119, 114, 105, 116, 101, 45, 111, 110, 108, 121, 32, 109, 111, 100, 101, 32, 97, 110, 100, 32, 99, 97, 110, 110, 111, 116, 32, 114, 101, 99, 101, 105, 118, 101, 32, 102, 105, 108, 101, 115]
def txtReadyToReceive : List Nat :=
  [82, 101, 97, 100, 121, 32, 116, 111, 32, 114, 101, 99, 101, 105, 118, 101, 32, 102, 105, 108, 101]
def txtNoActiveTransfer : List Nat :=
  [78, 111, 32, 97, 99, 116, 105, 118, 101, 32, 102, 105, 108, 101, 32, 116, 114, 97, 110, 115, 102, 101, 114]
def txtFileNotOpen : List Nat :=
  [70, 105, 108, 101, 32, 110, 111, 116, 32, 111, 112, 101, 110, 32, 102, 111, 114, 32, 119, 114, 105, 116, 105, 110, 103]
def txtWriteFailed : List Nat :=
  [70, 97, 105, 108, 101, 100, 32, 116, 111, 32, 119, 114, 105, 116, 101, 32, 102, 105, 108, 101, 58, 32]
def txtNoTransferFor : List Nat :=
  [78, 111, 32, 97, 99, 116, 105, 118, 101, 32, 102, 105, 108, 101, 32, 116, 114, 97, 110, 115, 102, 101, 114, 32, 102, 111, 114, 32]
def txtChecksumFailed : List Nat :=
  [67, 104, 101, 99, 107, 115, 117, 109, 32, 118, 101, 114, 105, 102, 105, 99, 97, 116, 105, 111, 110, 32, 102, 97, 105, 108, 101, 100, 32, 102, 111, 114, 32]
def nameFshIgnore : List Nat := [46, 102, 115, 104, 105, 103, 110, 111, 114, 101]
def nameGitIgnore : List Nat := [46, 103, 105, 116, 105, 103, 110, 111, 114, 101]

def mkError (d : List Nat) : Message := { type := MsgTypeError, data := d }
def mkCommandResult (d : List Nat) : Message := { type := MsgTypeCommandResult, data := d }

/-- Go `filepath.Base`: the last non-empty path element. -/
def baseName (p : List Nat) : List Nat :=
  (((splitOnByte sepB p).filter (fun c => !(c == []))).getLastD dotB)

/-- `filepath.Base(p)` is `.fshignore` or `.gitignore`
(the restricted-file check of `handleGetCommand`/`handleFileStart`). -/
def isRestrictedFile (p : List Nat) : Bool :=
  baseName p == nameFshIgnore || baseName p == nameGitIgnore

/-- `os.Stat` against the modelled file system: a known directory, or a
file with its size, or absent. -/
def statAt (a : AppState) (p : List Nat) : Option (Bool × Nat) :=
  if a.dirs.contains p then some (true, 0)
  else (fsLookup a.fs p).map (fun c => (false, c.length))

/-- `Connection.handleGetCommand` (`connection.go` lines 584-774), the
synchronous body: argument check, admission control, path safety,
read-only mode, restricted names, stat, size cap, open, registration,
optional checksum, reliable FILESTART (outcome `reliableOk`; on
failure the file is closed and the transfer deregistered).  The
spawned chunk-streaming goroutine is asynchronous and outside this
function's effect. -/
def handleGetCommand (hash : List Nat → List Nat) (reliableOk : Bool)
    (c : Nat) (args : List (List Nat)) (a : AppState) : Message × AppState :=
  if args.length < 1 then (mkError txtGetNeedsPath, a)
  else if !canInitiateTransfer a then (mkError txtTooMany, a)
  else
    let filePath := args.headD []
    if !isPathSafe a.config.cwd filePath a.config.folder then (mkError txtAccessDenied, a)
    else if a.config.readOnly then (mkError txtReadOnly, a)
    else if isRestrictedFile filePath then (mkError txtRestricted, a)
    else
      let fullPath := joinPath a.config.folder filePath
      match statAt a fullPath with
      | none => (mkError txtFileNotFound, a)
      | some (isDir, size) =>
        if isDir then (mkError txtGetIsDir, a)
        else if a.config.maxSize > 0 ∧ size > a.config.maxSize * 1024 * 1024 then
          (mkError (txtSizeExceeds ++ natDec a.config.maxSize ++ txtMB), a)
        else
          -- os.Open succeeds: stat just found a regular file
          let handle := a.nextHandle + 1
          let a1 := { a with nextHandle := handle }
          let t0 := { newFileTransfer filePath size .send c with file := some handle }
          let (a2, t1) := addTransfer a1 t0
          let content := (fsLookup a2.fs fullPath).getD []
          let a3 := if a2.config.verify then
              { a2 with transfers := (updateByName a2.transfers filePath
                  (fun u => { u with checksum := hash content })) }
            else a2
          if !reliableOk then
            let a4 := { a3 with closedHandles := a3.closedHandles ++ [handle], transfers := removeByName a3.transfers t1.name }
            (mkError txtSendStartFailed, a4)
          else
            (mkCommandResult (txtStartingTransfer ++ filePath), a3)

/-- `Connection.handlePutCommand` (`connection.go` lines 776-802):
argument check, write-only mode, admission control; it registers
nothing. -/
def handlePutCommand (args : List (List Nat)) (a : AppState) : Message × AppState :=
  if args.length < 1 then (mkError txtPutNeedsPath, a)
  else if a.config.writeOnly then (mkError txtWriteOnly, a)
  else if !canInitiateTransfer a then (mkError txtTooMany, a)
  else (mkCommandResult txtReadyToReceive, a)

/-! ## File-transfer message handlers (`connection.go`) -/

/-- `Connection.handleFileData` (`connection.go` lines 1094-1148):
find the connection's InProgress receive transfer, decode the payload
(raw if still binary; else base64, falling back to the raw bytes when
the decode fails), append to the open file, and advance the byte and
progress counters.  `writeOk` is the outcome of the file write. -/
def handleFileData (writeOk : Bool) (c : Nat) (msg : Message) (a : AppState) :
    AppState × List Message :=
  match a.transfers.find? (fun t =>
      t.conn == c && t.dir == TransferDir.receive && t.status == TransferStatus.inProgress) with
  | none => (a, [mkError txtNoActiveTransfer])
  | some t =>
    if t.file = none then (a, [mkError txtFileNotOpen])
    else if t.status = .paused then (a, [])
    else
      let data := if msg.binary then msg.data
        else match base64Decode msg.data with
          | some d => d
          | none => msg.data
      if !writeOk then
        ({ a with transfers := (updateByName a.transfers t.name
             (fun u => { u with status := .failed })) },
         [mkError txtWriteFailed])
      else
        let a1 := { a with fs := fsAppend a.fs (joinPath a.config.folder t.name) data }
        let upd := fun (u : FileTransfer) =>
          let newBytes := u.bytesTransferred + data.length
          if u.totalSize > 0 ∧ newBytes * 100 / u.totalSize > u.lastProgress + 4 then
            { u with bytesTransferred := newBytes,
                     lastProgress := newBytes * 100 / u.totalSize }
          else { u with bytesTransferred := newBytes }
        ({ a1 with transfers := updateByName a1.transfers t.name upd }, [])

/-- The completion tail of `handleFileEnd` (`connection.go` lines
1207-1223): mark Complete, send the path-carrying ACK five times, and
remove the transfer from the registry. -/
def fileEndComplete (filePath : List Nat) (a : AppState) : AppState × List Message :=
  let a1 := { a with transfers := (updateByName a.transfers filePath
      (fun u => { u with status := .complete })) }
  let a2 := { a1 with transfers := removeByName a1.transfers filePath }
  (a2, List.replicate 5 { type := MsgTypeACK, data := filePath })

/-- `Connection.handleFileEnd` (`connection.go` lines 1150-1223):
split `path|checksum`, find the connection's receive transfer for the
path, close its file handle, verify the checksum when verification is
on and a checksum was carried (mismatch: mark Failed, delete the
file, report ERROR — and return without deregistering), otherwise
complete. -/
def handleFileEnd (hash : List Nat → List Nat) (c : Nat) (msg : Message)
    (a : AppState) : AppState × List Message :=
  let parts := splitOnByte 124 msg.data
  let filePath := parts.headD []
  let remoteChecksum := parts.getD 1 []
  match a.transfers.find? (fun t =>
      t.conn == c && t.dir == TransferDir.receive && t.name == filePath) with
  | none => (a, [mkError (txtNoTransferFor ++ filePath)])
  | some t =>
    let a1 := { a with transfers := (updateByName a.transfers filePath (fun u => { u with file := none })), closedHandles := a.closedHandles ++ t.file.toList }
    let fullPath := joinPath a1.config.folder filePath
    if a1.config.verify ∧ remoteChecksum ≠ [] then
      match fsLookup a1.fs fullPath with
      | none => fileEndComplete filePath a1   -- reopen failed: only logged
      | some content =>
        if hash content ≠ remoteChecksum then
          ({ a1 with transfers := (updateByName a1.transfers filePath (fun u => { u with status := .failed })), fs := fsRemove a1.fs fullPath },
           [mkError (txtChecksumFailed ++ filePath)])
        else fileEndComplete filePath a1
    else fileEndComplete filePath a1

/-- `Connection.handleAck` (`connection.go` lines 1252-1269): an ACK
whose data names a transfer on this connection in WaitingAck *or
still InProgress* marks it Complete and removes it.  The completed
transfer record is returned for observability. -/
def handleAck (c : Nat) (msg : Message) (a : AppState) :
    AppState × Option FileTransfer :=
  match a.transfers.find? (fun t =>
      t.name == msg.data && t.conn == c &&
      (t.status == TransferStatus.waitingAck || t.status == TransferStatus.inProgress)) with
  | none => (a, none)
  | some t =>
    ({ a with transfers := removeByName a.transfers t.name },
     some { t with status := .complete })

/-- `CommandParser.handleCancelTransfer` (`part_007` lines 726-755,
`part_008` lines 765-794), after the numeric-argument parse: find the
transfer by id, mark it Failed, close its file handle if open, remove
it from the registry.  Returns the mutated transfer when found. -/
def handleCancelTransfer (a : AppState) (idArg : Nat) :
    AppState × Option FileTransfer :=
  match a.transfers.find? (fun t => t.id == idArg) with
  | none => (a, none)
  | some t =>
    let t' := { t with status := .failed, file := none }
    ({ a with transfers := removeByName a.transfers t.name, closedHandles := a.closedHandles ++ t.file.toList },
     some t')

/-! ## Pending-message (ACK/retry) model (`connection.go` lines 246-402)

One connection's `pendingMessages` map, keyed by message id.  Times
are `Nat` milliseconds.  `ResponseChan` is allocated but never used by
the sweep and is not modelled. -/

structure PendingMessage where
  message : Message
  retryCount : Nat
  lastAttempt : Nat
  deriving Repr, DecidableEq

abbrev PendingMap := List (List Nat × PendingMessage)

def pendingLookup (p : PendingMap) (i : List Nat) : Option PendingMessage :=
  (p.find? (fun e => e.1 == i)).map (fun e => e.2)

/-- `Connection.addPendingMessage` (`connection.go` lines 284-298). -/
def addPendingMessage (now : Nat) (msg : Message) (p : PendingMap) : PendingMap :=
  if msg.id = [] then p
  else if p.any (fun e => e.1 == msg.id) then
    p.map (fun e => if e.1 = msg.id then
      (e.1, { message := msg.clone, retryCount := 0, lastAttempt := now }) else e)
  else p ++ [(msg.id, { message := msg.clone, retryCount := 0, lastAttempt := now })]

/-- `Connection.SendMessage` (`connection.go` lines 246-282): assign a
fresh id to an id-less ACK-requiring message, marshal and write
(`writeOk`; a failed write sends nothing and records nothing), then
record the message as pending unless its type is COMMANDRESULT.
Returns the message as sent and the new pending map. -/
def sendMessage (now : Nat) (freshId : List Nat) (writeOk : Bool)
    (msg : Message) (p : PendingMap) : Option (Message × PendingMap) :=
  let msg := if msg.id = [] ∧ msg.requiresAck then { msg with id := freshId } else msg
  if !writeOk then none
  else
    let p' := if msg.requiresAck ∧ ¬ msg.type = MsgTypeCommandResult then
        addPendingMessage now msg p
      else p
    some (msg, p')

/-- One tick of `Connection.monitorPendingMessages` (`connection.go`
lines 300-335): an entry at the retry cap (5) is dropped and logged
as failed; otherwise, once the elapsed time exceeds
`initialWait * 2^retryCount` (initialWait = 100 ms) the message is
re-sent with an incremented wire retry counter and the entry's count
and timestamp advance.  Returns (new map, re-sent messages, ids of
messages dropped as failed). -/
def sweepPending (now : Nat) : PendingMap → PendingMap × List Message × List (List Nat)
  | [] => ([], [], [])
  | (i, e) :: rest =>
    let (m, rs, fl) := sweepPending now rest
    if e.retryCount ≥ 5 then (m, rs, i :: fl)
    else if now - e.lastAttempt > 100 * 2 ^ e.retryCount then
      ((i, { e with retryCount := e.retryCount + 1, lastAttempt := now }) :: m,
       e.message.clone.incrementRetry :: rs, fl)
    else ((i, e) :: m, rs, fl)

/-- `Connection.removePendingMessage` (`connection.go` lines 337-341). -/
def removePendingMessage (i : List Nat) (p : PendingMap) : PendingMap :=
  p.filter (fun e => !(e.1 == i))

/-- The ACK clause of `Connection.handleMessage` (`connection.go`
lines 380-382): an incoming message of type ACK removes the pending
entry under its id. -/
def handleIncomingAckSweep (msg : Message) (p : PendingMap) : PendingMap :=
  if msg.type = MsgTypeACK then removePendingMessage msg.id p else p

/-! ## Concrete fixtures (used by witnesses and counterexamples)

A small shared-folder configuration (`/s`, working directory `/c`) and
states built on it.  `exRecvT` is a registered receive transfer for the
one-byte path `"a"` ([97]) on connection 1 with open handle 7, 2 of 100
bytes written; `exSendT n` is an InProgress send transfer used to fill
the admission-control quota. -/

def exConfig : Config :=
  { folder := [47, 115], cwd := [47, 99], readOnly := false,
    writeOnly := false, maxSize := 0, verify := true }

def exEmptyApp : AppState :=
  { config := exConfig, transfers := [], nextTransferId := 0, fs := [],
    dirs := [], closedHandles := [], nextHandle := 0 }

def exRecvT : FileTransfer :=
  { id := 1, name := [97], dir := .receive, status := .inProgress,
    totalSize := 100, bytesTransferred := 2, lastProgress := 0,
    checksum := [], file := some 7, conn := 1 }

def exSendT (n : Nat) : FileTransfer :=
  { id := n, name := [n], dir := .send, status := .inProgress,
    totalSize := 10, bytesTransferred := 0, lastProgress := 0,
    checksum := [], file := none, conn := 1 }

/-- State with the one receive transfer registered and its partial
file `/s/a` holding bytes [1,2,3]. -/
def exApp1 : AppState :=
  { config := exConfig, transfers := [exRecvT], nextTransferId := 1,
    fs := [([47, 115, 47, 97], [1, 2, 3])], dirs := [],
    closedHandles := [], nextHandle := 7 }

/-- A FILESTART message with id "m1", used by the pending-map witnesses. -/
def exMsgFS : Message := { type := MsgTypeFileStart, data := [97], id := [109, 49] }

/-- A pending entry for `exMsgFS` at a given retry count and last-attempt time. -/
def exPend (rc la : Nat) : PendingMessage :=
  { message := exMsgFS, retryCount := rc, lastAttempt := la }

/-- State with three InProgress transfers: the admission quota is full. -/
def exAppFull : AppState :=
  { config := exConfig, transfers := [exSendT 101, exSendT 102, exSendT 103],
    nextTransferId := 103, fs := [([47, 115, 47, 97], [1, 2, 3])], dirs := [],
    closedHandles := [], nextHandle := 7 }

/-! ## Helper lemmas about the registry map operations -/

theorem mapSetByName_mem_name (l : List FileTransfer) (t u : FileTransfer)
    (hu : u ∈ mapSetByName l t) (hn : u.name = t.name) : u = t := by
  unfold mapSetByName at hu
  by_cases hany : l.any (fun v => v.name == t.name)
  · simp only [hany, if_pos] at hu
    obtain ⟨v, _, hv⟩ := List.mem_map.mp hu
    by_cases hvn : v.name = t.name
    · simpa [hvn] using hv.symm
    · rw [if_neg hvn] at hv
      exact absurd (hv ▸ hn) hvn
  · simp only [hany, Bool.false_eq_true, if_neg, if_false] at hu
    rcases List.mem_append.mp hu with h | h
    · exact absurd (List.any_eq_true.mpr ⟨u, h, by simp [hn]⟩) hany
    · simpa using h

theorem mapSetByName_self_mem (l : List FileTransfer) (t : FileTransfer) :
    t ∈ mapSetByName l t := by
  unfold mapSetByName
  by_cases hany : l.any (fun v => v.name == t.name)
  · simp only [hany, if_pos]
    obtain ⟨v, hvl, hvn⟩ := List.any_eq_true.mp hany
    exact List.mem_map.mpr ⟨v, hvl, by simp [beq_iff_eq.mp hvn]⟩
  · simp [hany]

theorem lookupByName_mapSetByName (l : List FileTransfer) (t : FileTransfer) :
    lookupByName (mapSetByName l t) t.name = some t := by
  unfold lookupByName
  cases hf : (mapSetByName l t).find? (fun u => u.name == t.name) with
  | none =>
    have := List.find?_eq_none.mp hf t (mapSetByName_self_mem l t)
    simp at this
  | some u =>
    have hp : u.name = t.name := by simpa using List.find?_some hf
    rw [mapSetByName_mem_name l t u (List.mem_of_find?_eq_some hf) hp]

/-! ## Helper lemmas about byte strings -/

theorem hasPrefixB_iff (s p : List Nat) :
    hasPrefixB s p = true ↔ ∃ rest, s = p ++ rest := by
  induction p generalizing s with
  | nil =>
    cases s <;> simp [hasPrefixB]
  | cons q ps ih =>
    cases s with
    | nil => simp [hasPrefixB]
    | cons b bs =>
      simp only [hasPrefixB, Bool.and_eq_true, beq_iff_eq, ih, List.cons_append,
        List.cons.injEq]
      constructor
      · rintro ⟨hb, rest, hrest⟩
        exact ⟨rest, hb, hrest⟩
      · rintro ⟨rest, hb, hrest⟩
        exact ⟨hb, rest, hrest⟩

/-! ## Helper lemmas: base64 round trip -/

theorem b64Value_b64Char : ∀ n, n < 64 → b64Value (b64Char n) = some n := by decide

theorem b64Char_bounds : ∀ n, n < 64 → 42 < b64Char n ∧ b64Char n < 123 := by decide

theorem b64Char_ne_61 : ∀ n, n < 64 → b64Char n ≠ 61 := by decide

theorem base64Encode_bounds (bs : List Nat) (hbs : ∀ b ∈ bs, b < 256) :
    ∀ c ∈ base64Encode bs, 42 < c ∧ c < 123 := by
  induction bs using base64Encode.induct with
  | case1 => intro c hc; cases hc
  | case2 a =>
    have ha : a < 256 := hbs a (by simp)
    intro c hc
    simp only [base64Encode, List.mem_cons] at hc
    rcases hc with h | h | h | h | h
    · exact h ▸ b64Char_bounds _ (by omega)
    · exact h ▸ b64Char_bounds _ (by omega)
    · omega
    · omega
    · cases h
  | case3 a b =>
    have ha : a < 256 := hbs a (by simp)
    have hb : b < 256 := hbs b (by simp)
    intro c hc
    simp only [base64Encode, List.mem_cons] at hc
    rcases hc with h | h | h | h | h
    · exact h ▸ b64Char_bounds _ (by omega)
    · exact h ▸ b64Char_bounds _ (by omega)
    · exact h ▸ b64Char_bounds _ (by omega)
    · omega
    · cases h
  | case4 a b d rest ih =>
    have ha : a < 256 := hbs a (by simp)
    have hb : b < 256 := hbs b (by simp)
    have hd : d < 256 := hbs d (by simp)
    intro c hc
    simp only [base64Encode, List.mem_cons] at hc
    rcases hc with h | h | h | h | h
    · exact h ▸ b64Char_bounds _ (by omega)
    · exact h ▸ b64Char_bounds _ (by omega)
    · exact h ▸ b64Char_bounds _ (by omega)
    · exact h ▸ b64Char_bounds _ (by omega)
    · exact ih (fun x hx => hbs x (by simp [hx])) c h

theorem base64DecodeGroups_encode (bs : List Nat) (hbs : ∀ b ∈ bs, b < 256) :
    base64DecodeGroups (base64Encode bs) = some bs := by
  induction bs using base64Encode.induct with
  | case1 => rfl
  | case2 a =>
    have ha : a < 256 := hbs a (by simp)
    simp only [base64Encode, base64DecodeGroups,
      b64Value_b64Char _ (by omega : a / 4 < 64),
      b64Value_b64Char _ (by omega : a % 4 * 16 < 64)]
    simp only [reduceIte, and_self, if_true]
    exact congrArg some (by simpa using (by omega : a / 4 * 4 + a % 4 * 16 / 16 = a))
  | case3 a b =>
    have ha : a < 256 := hbs a (by simp)
    have hb : b < 256 := hbs b (by simp)
    simp only [base64Encode, base64DecodeGroups,
      b64Value_b64Char _ (by omega : a / 4 < 64),
      b64Value_b64Char _ (by omega : a % 4 * 16 + b / 16 < 64),
      b64Value_b64Char _ (by omega : b % 16 * 4 < 64),
      if_neg (b64Char_ne_61 _ (by omega : b % 16 * 4 < 64)),
      reduceIte, if_true]
    have e1 : a / 4 * 4 + (a % 4 * 16 + b / 16) / 16 = a := by omega
    have e2 : (a % 4 * 16 + b / 16) % 16 * 16 + b % 16 * 4 / 4 = b := by omega
    exact congrArg some (by rw [e1, e2])
  | case4 a b d rest ih =>
    have ha : a < 256 := hbs a (by simp)
    have hb : b < 256 := hbs b (by simp)
    have hd : d < 256 := hbs d (by simp)
    simp only [base64Encode, base64DecodeGroups,
      b64Value_b64Char _ (by omega : a / 4 < 64),
      b64Value_b64Char _ (by omega : a % 4 * 16 + b / 16 < 64),
      b64Value_b64Char _ (by omega : b % 16 * 4 + d / 64 < 64),
      b64Value_b64Char _ (by omega : d % 64 < 64),
      if_neg (b64Char_ne_61 _ (by omega : b % 16 * 4 + d / 64 < 64)),
      if_neg (b64Char_ne_61 _ (by omega : d % 64 < 64)),
      ih (fun x hx => hbs x (by simp [hx])), Option.map_some']
    have e1 : a / 4 * 4 + (a % 4 * 16 + b / 16) / 16 = a := by omega
    have e2 : (a % 4 * 16 + b / 16) % 16 * 16 + (b % 16 * 4 + d / 64) / 4 = b := by omega
    have e3 : (b % 16 * 4 + d / 64) % 4 * 64 + d % 64 = d := by omega
    exact congrArg some (by rw [e1, e2, e3])

theorem base64_roundtrip (bs : List Nat) (hbs : ∀ b ∈ bs, b < 256) :
    base64Decode (base64Encode bs) = some bs := by
  unfold base64Decode
  rw [List.filter_eq_self.mpr, base64DecodeGroups_encode bs hbs]
  intro c hc
  have := base64Encode_bounds bs hbs c hc
  simp only [Bool.not_eq_true', Bool.or_eq_false_iff, beq_eq_false_iff_ne, ne_eq]
  omega

/-! ## Helper lemmas: JSON string escaping and lexing -/

theorem replaceByte_append (tgt : Nat) (repl l1 l2 : List Nat) :
    replaceByte tgt repl (l1 ++ l2) = replaceByte tgt repl l1 ++ replaceByte tgt repl l2 :=
  List.flatMap_append l1 l2 _

theorem escapeJSON_eq_flatMap (s : List Nat) : escapeJSON s = s.flatMap escChar := by
  induction s with
  | nil => rfl
  | cons b bs ih =>
    have hcons : ∀ (t : Nat) (r : List Nat) (x : Nat) (xs : List Nat),
        replaceByte t r (x :: xs) =
          (if x = t then r else [x]) ++ replaceByte t r xs := fun t r x xs => rfl
    unfold escapeJSON
    rw [hcons, replaceByte_append, replaceByte_append, replaceByte_append, replaceByte_append]
    rw [show replaceByte 9 [92, 116] (replaceByte 13 [92, 114] (replaceByte 10 [92, 110]
      (replaceByte 34 [92, 34] (replaceByte 92 [92, 92] bs)))) = escapeJSON bs from rfl, ih]
    rw [List.flatMap_cons]
    congr 1
    by_cases h92 : b = 92
    · subst h92; rfl
    · by_cases h34 : b = 34
      · subst h34; rfl
      · by_cases h10 : b = 10
        · subst h10; rfl
        · by_cases h13 : b = 13
          · subst h13; rfl
          · by_cases h9 : b = 9
            · subst h9; rfl
            · simp [escChar, replaceByte, h92, h34, h10, h13, h9]

theorem expectBytes_append (p r : List Nat) : expectBytes p (p ++ r) = some r := by
  induction p with
  | nil => rfl
  | cons x xs ih => simp [expectBytes, ih]

theorem lexJSONString_cons_quote (X : List Nat) :
    lexJSONString (34 :: X) = some ([], X) := by
  cases X <;> rfl

theorem lexJSONString_cons_plain (b : Nat) (Y : List Nat) (hY : Y ≠ [])
    (h34 : b ≠ 34) (h92 : b ≠ 92) (h32 : ¬ b < 32) :
    lexJSONString (b :: Y) = (lexJSONString Y).map (fun p => (b :: p.1, p.2)) := by
  cases Y with
  | nil => exact absurd rfl hY
  | cons e X =>
    have step : lexJSONString (b :: e :: X) =
        (if b = 34 then some ([], e :: X)
         else if b = 92 then
           (jsonEscChar e).bind fun c =>
             (lexJSONString X).bind fun d => some (c :: d.1, d.2)
         else if b < 32 then none
         else (lexJSONString (e :: X)).bind fun d => some (b :: d.1, d.2)) := rfl
    rw [step, if_neg h34, if_neg h92, if_neg h32]
    cases h : lexJSONString (e :: X) <;> rfl

theorem lexJSONString_cons_escape (e c : Nat) (X : List Nat) (he : jsonEscChar e = some c) :
    lexJSONString (92 :: e :: X) = (lexJSONString X).map (fun p => (c :: p.1, p.2)) := by
  have step : lexJSONString (92 :: e :: X) =
      (jsonEscChar e).bind (fun c' => (lexJSONString X).bind
        (fun d => some (c' :: d.1, d.2))) := rfl
  rw [step, he]
  cases h : lexJSONString X <;> rfl

theorem lexJSONString_clean (s r : List Nat) (hs : ∀ b ∈ s, jsonCleanByte b) :
    lexJSONString (s ++ 34 :: r) = some (s, r) := by
  induction s with
  | nil => rw [List.nil_append, lexJSONString_cons_quote]
  | cons b bs ih =>
    obtain ⟨h32, h126, h34, h92⟩ := hs b (by simp)
    rw [List.cons_append,
      lexJSONString_cons_plain b _ (by simp) h34 h92 (by omega),
      ih (fun x hx => hs x (by simp [hx]))]
    rfl

theorem lexJSONString_escaped (s r : List Nat) (hs : ∀ b ∈ s, jsonTextByte b) :
    lexJSONString (s.flatMap escChar ++ 34 :: r) = some (s, r) := by
  induction s with
  | nil => rw [List.flatMap_nil, List.nil_append, lexJSONString_cons_quote]
  | cons b bs ih =>
    have htb := hs b (by simp)
    have ihr := ih (fun x hx => hs x (by simp [hx]))
    rw [List.flatMap_cons, List.append_assoc]
    by_cases h92 : b = 92
    · subst h92
      rw [show ∀ X, escChar 92 ++ X = 92 :: 92 :: X from fun X => rfl,
        lexJSONString_cons_escape 92 92 _ rfl, ihr]
      rfl
    · by_cases h34 : b = 34
      · subst h34
        rw [show ∀ X, escChar 34 ++ X = 92 :: 34 :: X from fun X => rfl,
          lexJSONString_cons_escape 34 34 _ rfl, ihr]
        rfl
      · by_cases h10 : b = 10
        · subst h10
          rw [show ∀ X, escChar 10 ++ X = 92 :: 110 :: X from fun X => rfl,
            lexJSONString_cons_escape 110 10 _ rfl, ihr]
          rfl
        · by_cases h13 : b = 13
          · subst h13
            rw [show ∀ X, escChar 13 ++ X = 92 :: 114 :: X from fun X => rfl,
              lexJSONString_cons_escape 114 13 _ rfl, ihr]
            rfl
          · by_cases h9 : b = 9
            · subst h9
              rw [show ∀ X, escChar 9 ++ X = 92 :: 116 :: X from fun X => rfl,
                lexJSONString_cons_escape 116 9 _ rfl, ihr]
              rfl
            · have hb : 32 ≤ b ∧ b ≤ 126 := by
                rcases htb with h | h | h | h
                · exact absurd h h9
                · exact absurd h h10
                · exact absurd h h13
                · exact h
              have hesc : escChar b = [b] := by
                simp [escChar, h92, h34, h10, h13, h9]
              rw [hesc, List.singleton_append,
                lexJSONString_cons_plain b _ (by simp) h34 h92 (by omega), ihr]
              rfl

/-! ## Helper lemmas about the pending-message map -/

theorem pendingLookup_addPendingMessage (now : Nat) (msg : Message) (p : PendingMap)
    (hid : msg.id ≠ []) :
    pendingLookup (addPendingMessage now msg p) msg.id =
      some { message := msg.clone, retryCount := 0, lastAttempt := now } := by
  unfold addPendingMessage
  rw [if_neg hid]
  induction p with
  | nil => simp [pendingLookup]
  | cons h t ih =>
    by_cases hh : h.1 = msg.id
    · have hany : (h :: t).any (fun e => e.1 == msg.id) = true :=
        List.any_eq_true.mpr ⟨h, List.mem_cons_self h t, by simp [hh]⟩
      simp [hany, pendingLookup, hh]
    · have hany : (h :: t).any (fun e => e.1 == msg.id) = t.any (fun e => e.1 == msg.id) := by
        simp [List.any_cons, hh]
      by_cases ht : t.any (fun e => e.1 == msg.id)
      · rw [if_pos (by rw [hany]; exact ht)]
        rw [if_pos ht] at ih
        simp only [List.map_cons, if_neg hh]
        simpa [pendingLookup, List.find?_cons, hh] using ih
      · rw [if_neg (by rw [hany]; simpa using ht)]
        rw [if_neg (by simpa using ht)] at ih
        simpa [pendingLookup, List.cons_append, List.find?_cons, hh] using ih

theorem sweepPending_drop_at_cap (now : Nat) (p : PendingMap) (i : List Nat)
    (e : PendingMessage) (hmem : (i, e) ∈ p) (hcap : e.retryCount ≥ 5) :
    i ∈ (sweepPending now p).2.2 := by
  induction p with
  | nil => cases hmem
  | cons h t ih =>
    rcases List.mem_cons.mp hmem with heq | htl
    · subst heq
      simp [sweepPending, hcap]
    · unfold sweepPending
      by_cases h5 : h.2.retryCount ≥ 5 <;>
        by_cases hdue : now - h.2.lastAttempt > 100 * 2 ^ h.2.retryCount <;>
          simp [h5, hdue, ih htl]

theorem sweepPending_resend_due (now : Nat) (p : PendingMap) (i : List Nat)
    (e : PendingMessage) (hmem : (i, e) ∈ p) (hcap : e.retryCount < 5)
    (hdue : now - e.lastAttempt > 100 * 2 ^ e.retryCount) :
    (i, { e with retryCount := e.retryCount + 1, lastAttempt := now }) ∈
      (sweepPending now p).1 ∧
    e.message.clone.incrementRetry ∈ (sweepPending now p).2.1 := by
  induction p with
  | nil => cases hmem
  | cons h t ih =>
    rcases List.mem_cons.mp hmem with heq | htl
    · subst heq
      simp [sweepPending, Nat.not_le.mpr hcap, hdue]
    · unfold sweepPending
      by_cases h5 : h.2.retryCount ≥ 5 <;>
        by_cases hhdue : now - h.2.lastAttempt > 100 * 2 ^ h.2.retryCount <;>
          simp [h5, hhdue, (ih htl).1, (ih htl).2]

theorem sweepPending_keep_not_due (now : Nat) (p : PendingMap) (i : List Nat)
    (e : PendingMessage) (hmem : (i, e) ∈ p) (hcap : e.retryCount < 5)
    (hnot : ¬ now - e.lastAttempt > 100 * 2 ^ e.retryCount) :
    (i, e) ∈ (sweepPending now p).1 := by
  induction p with
  | nil => cases hmem
  | cons h t ih =>
    rcases List.mem_cons.mp hmem with heq | htl
    · subst heq
      simp [sweepPending, Nat.not_le.mpr hcap, hnot]
    · unfold sweepPending
      by_cases h5 : h.2.retryCount ≥ 5 <;>
        by_cases hhdue : now - h.2.lastAttempt > 100 * 2 ^ h.2.retryCount <;>
          simp [h5, hhdue, ih htl]

theorem pendingLookup_removePendingMessage (i : List Nat) (p : PendingMap) :
    pendingLookup (removePendingMessage i p) i = none ∧
    (∀ j, j ≠ i → pendingLookup (removePendingMessage i p) j = pendingLookup p j) := by
  constructor
  · unfold pendingLookup removePendingMessage
    rw [List.find?_eq_none.mpr]
    · rfl
    · intro u hu
      have := (List.mem_filter.mp hu).2
      simpa using this
  · intro j hj
    unfold pendingLookup removePendingMessage
    induction p with
    | nil => rfl
    | cons h t ih =>
      rw [List.filter_cons]
      by_cases hhi : h.1 = i
      · rw [if_neg (by simp [hhi])]
        rw [List.find?_cons_of_neg _ (by simp [hhi, Ne.symm hj])]
        exact ih
      · rw [if_pos (by simp [hhi])]
        by_cases hhj : h.1 = j
        · rw [List.find?_cons_of_pos _ (by simp [hhj]),
            List.find?_cons_of_pos _ (by simp [hhj])]
        · rw [List.find?_cons_of_neg _ (by simp [hhj]),
            List.find?_cons_of_neg _ (by simp [hhj])]
          exact ih

/-! ## Claims -/

/-- C8: `RequiresAck(m)` returns true iff m's Type is one of FILESTART,
FILEEND, COMMAND, COMMANDRESULT; it returns false for every other type
and depends on no field of the message other than Type. -/
theorem c8_requiresAck_spec (m : Message) :
    (m.requiresAck = true ↔
      (m.type = MsgTypeFileStart ∨ m.type = MsgTypeFileEnd ∨
       m.type = MsgTypeCommand ∨ m.type = MsgTypeCommandResult)) ∧
    (∀ m' : Message, m.type = m'.type → m.requiresAck = m'.requiresAck) := by
  constructor
  · simp [Message.requiresAck, or_assoc]
  · intro m' h
    simp [Message.requiresAck, h]

/-- Witness for C8 at concrete messages: a PROGRESS message does not
require an ACK, a FILEEND does, and two messages sharing a type but
differing in every other field agree on `requiresAck`. -/
theorem c8_requiresAck_spec_witness :
    ({ type := MsgTypeProgress, data := [1] } : Message).requiresAck = false ∧
    ({ type := MsgTypeFileEnd, data := [] } : Message).requiresAck = true ∧
    ({ type := MsgTypeFileEnd, data := [] } : Message).requiresAck =
      ({ type := MsgTypeFileEnd, data := [7], binary := true, id := [9] } : Message).requiresAck := by
  refine ⟨by decide, by decide, ?_⟩
  exact (c8_requiresAck_spec { type := MsgTypeFileEnd, data := [] }).2
    { type := MsgTypeFileEnd, data := [7], binary := true, id := [9] } rfl

/-- C7: adding a second transfer with the same Name replaces the
first's registry entry (the map holds at most one transfer per path
and the earlier transfer is no longer reachable by its key), while
each `AddTransfer` call assigns a fresh, strictly increasing id. -/
theorem c7_addTransfer_overwrite (a : AppState) (t1 t2 : FileTransfer)
    (hname : t1.name = t2.name)
    (hids : ∀ u ∈ a.transfers, u.id ≤ a.nextTransferId) :
    lookupByName (addTransfer (addTransfer a t1).1 t2).1.transfers t2.name =
      some (addTransfer (addTransfer a t1).1 t2).2 ∧
    (∀ u ∈ (addTransfer (addTransfer a t1).1 t2).1.transfers,
      u.name = t2.name → u = (addTransfer (addTransfer a t1).1 t2).2) ∧
    (addTransfer a t1).2 ∉ (addTransfer (addTransfer a t1).1 t2).1.transfers ∧
    (addTransfer a t1).2.id = a.nextTransferId + 1 ∧
    (addTransfer (addTransfer a t1).1 t2).2.id = a.nextTransferId + 2 ∧
    (∀ u ∈ a.transfers, u.id < (addTransfer a t1).2.id) := by
  set t1' : FileTransfer := { t1 with id := a.nextTransferId + 1 } with ht1'
  set t2' : FileTransfer := { t2 with id := a.nextTransferId + 2 } with ht2'
  have h2 : (addTransfer (addTransfer a t1).1 t2).2 = t2' := rfl
  have h2s : (addTransfer (addTransfer a t1).1 t2).1.transfers =
      mapSetByName (mapSetByName a.transfers t1') t2' := rfl
  refine ⟨?_, ?_, ?_, rfl, rfl, ?_⟩
  · rw [h2s, h2]
    have : t2'.name = t2.name := rfl
    rw [← this]
    exact lookupByName_mapSetByName _ t2'
  · intro u hu hun
    rw [h2s] at hu
    rw [h2]
    exact mapSetByName_mem_name _ t2' u hu hun
  · intro hmem
    rw [h2s] at hmem
    have : t1' = t2' := mapSetByName_mem_name _ t2' t1' hmem (by simp [ht1', ht2', hname])
    have : t1'.id = t2'.id := by rw [this]
    simp [ht1', ht2'] at this
  · intro u hu
    have := hids u hu
    show u.id < a.nextTransferId + 1
    omega

/-- Witness for C7: two transfers named "a" added to an empty registry
with counter 0; the key then holds the second entry, whose id is 2. -/
theorem c7_addTransfer_overwrite_witness :
    (lookupByName (addTransfer (addTransfer exEmptyApp
        (newFileTransfer [97] 5 .send 1)).1
        (newFileTransfer [97] 9 .receive 2)).1.transfers
      (newFileTransfer [97] 9 TransferDir.receive 2).name).map FileTransfer.id = some 2 := by
  have h := c7_addTransfer_overwrite exEmptyApp
    (newFileTransfer [97] 5 .send 1) (newFileTransfer [97] 9 .receive 2)
    rfl (by intro u hu; simp [exEmptyApp] at hu)
  rw [h.1]
  rfl

/-- C6: cancelling a registered transfer twice has the same observable
effect as cancelling it once — the open file handle is closed exactly
once, the transfer's status is Failed, and it is absent from the
registry; the second invocation changes nothing. -/
theorem c6_cancel_idempotent (a : AppState) (n : Nat) (t : FileTransfer) (h : Nat)
    (hfind : a.transfers.find? (fun u => u.id == n) = some t)
    (hfile : t.file = some h)
    (hid : ∀ u ∈ a.transfers, u.id = n → u.name = t.name) :
    (handleCancelTransfer (handleCancelTransfer a n).1 n).1 = (handleCancelTransfer a n).1 ∧
    (handleCancelTransfer (handleCancelTransfer a n).1 n).2 = none ∧
    (handleCancelTransfer a n).2 = some { t with status := .failed, file := none } ∧
    (handleCancelTransfer a n).1.closedHandles = a.closedHandles ++ [h] ∧
    (∀ u ∈ (handleCancelTransfer a n).1.transfers, u.id ≠ n) := by
  have habsent : ∀ u ∈ removeByName a.transfers t.name, u.id ≠ n := by
    intro u hu hun
    have hmem := List.mem_filter.mp hu
    have hname := hid u hmem.1 hun
    simp [hname] at hmem
  have r2 : (removeByName a.transfers t.name).find? (fun u => u.id == n) = none :=
    List.find?_eq_none.mpr (fun u hu => by simpa using habsent u hu)
  simp only [handleCancelTransfer, hfind, r2, hfile]
  refine ⟨trivial, trivial, trivial, rfl, ?_⟩
  simpa using habsent

/-- Witness for C6 at the concrete one-transfer registry `exApp1`:
after two cancels of id 1 the state equals the state after one cancel,
whose handle-close log is exactly one close of handle 7. -/
theorem c6_cancel_idempotent_witness :
    (handleCancelTransfer (handleCancelTransfer exApp1 1).1 1).1 =
      (handleCancelTransfer exApp1 1).1 ∧
    (handleCancelTransfer exApp1 1).1.closedHandles = [7] := by
  have h := c6_cancel_idempotent exApp1 1 exRecvT 7
    (by decide) rfl (by decide)
  refine ⟨h.1, ?_⟩
  rw [h.2.2.2.1]
  rfl

/-- C10: `handleAck` marks a transfer Complete and removes it from the
registry for any ACK whose data equals the transfer's path on the same
connection, when the transfer is WaitingAck *or still InProgress* — an
ACK arriving before the stream is finished deregisters it. -/
theorem c10_ack_completes_early (a : AppState) (c : Nat) (msg : Message) (t : FileTransfer)
    (hfind : a.transfers.find? (fun u => u.name == msg.data && u.conn == c &&
      (u.status == TransferStatus.waitingAck || u.status == TransferStatus.inProgress)) = some t) :
    (t.status = .waitingAck ∨ t.status = .inProgress) ∧
    (handleAck c msg a).2 = some { t with status := .complete } ∧
    (handleAck c msg a).1.transfers = removeByName a.transfers t.name ∧
    (∀ u ∈ (handleAck c msg a).1.transfers, u.name ≠ t.name) := by
  have hp := List.find?_some hfind
  simp only [Bool.and_eq_true, Bool.or_eq_true, beq_iff_eq] at hp
  have hres : handleAck c msg a =
      ({ a with transfers := removeByName a.transfers t.name },
       some { t with status := .complete }) := by
    unfold handleAck
    rw [hfind]
  refine ⟨hp.2, by rw [hres], by rw [hres], ?_⟩
  rw [hres]
  intro u hu hun
  have hmem := List.mem_filter.mp hu
  simp [hun] at hmem

/-- Witness for C10: in `exApp1` the receive transfer has streamed
only 2 of 100 bytes and is still InProgress, yet an ACK carrying its
path completes and deregisters it. -/
theorem c10_ack_completes_early_witness :
    exRecvT.status = TransferStatus.inProgress ∧
    exRecvT.bytesTransferred < exRecvT.totalSize ∧
    (handleAck 1 { type := MsgTypeACK, data := [97] } exApp1).2 =
      some { exRecvT with status := .complete } ∧
    (handleAck 1 { type := MsgTypeACK, data := [97] } exApp1).1.transfers = [] := by
  have h := c10_ack_completes_early exApp1 1
    { type := MsgTypeACK, data := [97] } exRecvT (by decide)
  refine ⟨by decide, by decide, h.2.1, ?_⟩
  rw [h.2.2.1]
  rfl

/-- C9: a FILEDATA message that is not marked Binary and whose data is
not valid base64 neither fails the transfer nor reports an error: the
raw data bytes are written to the open destination file as-is and
BytesTransferred advances by the number of bytes written. -/
theorem c9_filedata_raw_fallback (a : AppState) (c : Nat) (msg : Message)
    (t : FileTransfer) (h : Nat)
    (hfind : a.transfers.find? (fun u => u.conn == c && u.dir == TransferDir.receive &&
      u.status == TransferStatus.inProgress) = some t)
    (hfile : t.file = some h)
    (hbin : msg.binary = false)
    (hb64 : base64Decode msg.data = none) :
    (handleFileData true c msg a).2 = [] ∧
    (handleFileData true c msg a).1.fs =
      fsAppend a.fs (joinPath a.config.folder t.name) msg.data ∧
    (∃ u ∈ (handleFileData true c msg a).1.transfers,
      u.name = t.name ∧ u.status = TransferStatus.inProgress ∧
      u.bytesTransferred = t.bytesTransferred + msg.data.length) := by
  have hp := List.find?_some hfind
  simp only [Bool.and_eq_true, beq_iff_eq] at hp
  have hmem := List.mem_of_find?_eq_some hfind
  have hnotnone : ¬ t.file = none := by simp [hfile]
  have hnotpaused : ¬ t.status = TransferStatus.paused := by
    rw [hp.2]
    intro hcon
    cases hcon
  simp only [handleFileData, hfind, hbin, Bool.false_eq_true, if_false, if_neg hnotnone,
    if_neg hnotpaused, hb64, Bool.not_true]
  refine ⟨trivial, trivial, ?_⟩
  refine ⟨_, List.mem_map.mpr ⟨t, hmem, rfl⟩, ?_⟩
  simp only [if_pos rfl]
  by_cases hprog : t.totalSize > 0 ∧
      (t.bytesTransferred + msg.data.length) * 100 / t.totalSize > t.lastProgress + 4
  · simp only [if_pos hprog]
    exact ⟨rfl, hp.2, rfl⟩
  · simp only [if_neg hprog]
    exact ⟨rfl, hp.2, rfl⟩

/-- Witness for C9: in `exApp1` a non-binary FILEDATA carrying the
two invalid base64 bytes 0x23 0x24 is appended raw to `/s/a` and the
byte counter advances from 2 to 4 with no error sent. -/
theorem c9_filedata_raw_fallback_witness :
    (handleFileData true 1 { type := MsgTypeFileData, data := [35, 36] } exApp1).2 = [] ∧
    (handleFileData true 1 { type := MsgTypeFileData, data := [35, 36] } exApp1).1.fs =
      fsAppend exApp1.fs (joinPath exApp1.config.folder exRecvT.name) [35, 36] ∧
    (∃ u ∈ (handleFileData true 1
        { type := MsgTypeFileData, data := [35, 36] } exApp1).1.transfers,
      u.name = exRecvT.name ∧ u.status = TransferStatus.inProgress ∧
      u.bytesTransferred = exRecvT.bytesTransferred + 2) :=
  c9_filedata_raw_fallback exApp1 1 { type := MsgTypeFileData, data := [35, 36] }
    exRecvT 7 (by decide) rfl rfl (by decide)

/-- C3: `canInitiateTransfer` is true iff strictly fewer than 3
registry transfers are InProgress (Paused/WaitingAck do not count),
and when it is false an incoming GET or PUT is answered with an ERROR
message and the registry's transfer map is unchanged. -/
theorem c3_admission_control (a : AppState) (hash : List Nat → List Nat)
    (rok : Bool) (c : Nat) (args : List (List Nat)) :
    (canInitiateTransfer a = true ↔
      (a.transfers.filter (fun t => t.status == TransferStatus.inProgress)).length < 3) ∧
    (∀ t : FileTransfer, t.status ≠ .inProgress →
      canInitiateTransfer { a with transfers := t :: a.transfers } = canInitiateTransfer a) ∧
    (canInitiateTransfer a = false →
      (handleGetCommand hash rok c args a).1.type = MsgTypeError ∧
      (handleGetCommand hash rok c args a).2.transfers = a.transfers ∧
      (handlePutCommand args a).1.type = MsgTypeError ∧
      (handlePutCommand args a).2.transfers = a.transfers) := by
  refine ⟨?_, ?_, ?_⟩
  · simp [canInitiateTransfer, List.countP_eq_length_filter]
  · intro t ht
    simp only [canInitiateTransfer, List.countP_cons]
    have : (t.status == TransferStatus.inProgress) = false := by
      simpa using ht
    simp [this]
  · intro hc
    have hget : (handleGetCommand hash rok c args a).1.type = MsgTypeError ∧
        (handleGetCommand hash rok c args a).2.transfers = a.transfers := by
      by_cases hargs : args.length < 1 <;>
        simp [handleGetCommand, hargs, hc, mkError]
    have hput : (handlePutCommand args a).1.type = MsgTypeError ∧
        (handlePutCommand args a).2.transfers = a.transfers := by
      by_cases hargs : args.length < 1 <;>
        by_cases hw : a.config.writeOnly <;>
          simp [handlePutCommand, hargs, hw, hc, mkError]
    exact ⟨hget.1, hget.2, hput.1, hput.2⟩

/-- Witness for C3: in `exAppFull` (three InProgress transfers) the
gate is closed, GET and PUT answer with ERROR, and the registry map is
untouched. -/
theorem c3_admission_control_witness :
    canInitiateTransfer exAppFull = false ∧
    (handleGetCommand (fun _ => []) true 1 [[97]] exAppFull).1.type = MsgTypeError ∧
    (handleGetCommand (fun _ => []) true 1 [[97]] exAppFull).2.transfers = exAppFull.transfers ∧
    (handlePutCommand [[97]] exAppFull).1.type = MsgTypeError ∧
    (handlePutCommand [[97]] exAppFull).2.transfers = exAppFull.transfers := by
  have h := (c3_admission_control exAppFull (fun _ => []) true 1 [[97]]).2.2 (by decide)
  exact ⟨by decide, h.1, h.2.1, h.2.2.1, h.2.2.2⟩

/-- C5 counterexample: a COMMANDRESULT message is ACK-requiring, yet a
successful SendMessage records no entry for it in the pending map
(`SendMessage` explicitly excludes COMMANDRESULT), so not every
ACK-requiring outbound message is recorded as the claim states. -/
theorem c5_counterexample :
    ({ type := MsgTypeCommandResult, data := [], id := [109, 49] } : Message).requiresAck = true ∧
    sendMessage 0 [] true { type := MsgTypeCommandResult, data := [], id := [109, 49] } [] =
      some ({ type := MsgTypeCommandResult, data := [], id := [109, 49] }, []) :=
  ⟨by decide, by decide⟩

/-- Reduction of `sendMessage` with a successful write: the id is
assigned if needed and the message recorded unless COMMANDRESULT. -/
theorem sendMessage_true_eq (now : Nat) (fid : List Nat) (msg : Message) (p : PendingMap) :
    sendMessage now fid true msg p =
      (let m := if msg.id = [] ∧ msg.requiresAck = true then { msg with id := fid } else msg
       some (m, if m.requiresAck = true ∧ ¬ m.type = MsgTypeCommandResult then
         addPendingMessage now m p else p)) := rfl

/-- C5 (amended): for every ACK-requiring outbound message *other than
COMMANDRESULT* successfully written by SendMessage, an entry keyed by
the sent id (the caller's id, or the fresh generated id when absent)
is recorded in the pending map with retry count 0; the background
sweep re-sends a pending entry once elapsed time exceeds the doubling
back-off 100·2^retryCount ms and leaves it untouched before that,
drops and logs it as failed at the cap of 5 retries; and receipt of a
message of type ACK carrying the same id removes the pending entry,
leaving every other id untouched. -/
theorem c5_retry_daemon (now : Nat) (fid : List Nat) (msg : Message)
    (p q : PendingMap) (i : List Nat) (e : PendingMessage) (ack : Message) :
    (msg.requiresAck = true → msg.type ≠ MsgTypeCommandResult → msg.id ≠ [] →
      sendMessage now fid true msg p = some (msg, addPendingMessage now msg p) ∧
      pendingLookup (addPendingMessage now msg p) msg.id =
        some { message := msg, retryCount := 0, lastAttempt := now }) ∧
    (msg.requiresAck = true → msg.type ≠ MsgTypeCommandResult → msg.id = [] → fid ≠ [] →
      sendMessage now fid true msg p =
        some ({ msg with id := fid }, addPendingMessage now { msg with id := fid } p) ∧
      pendingLookup (addPendingMessage now { msg with id := fid } p) fid =
        some { message := { msg with id := fid }, retryCount := 0, lastAttempt := now }) ∧
    ((i, e) ∈ q → e.retryCount ≥ 5 → i ∈ (sweepPending now q).2.2) ∧
    ((i, e) ∈ q → e.retryCount < 5 → now - e.lastAttempt > 100 * 2 ^ e.retryCount →
      (i, { e with retryCount := e.retryCount + 1, lastAttempt := now }) ∈
        (sweepPending now q).1 ∧
      e.message.clone.incrementRetry ∈ (sweepPending now q).2.1) ∧
    ((i, e) ∈ q → e.retryCount < 5 → ¬ now - e.lastAttempt > 100 * 2 ^ e.retryCount →
      (i, e) ∈ (sweepPending now q).1) ∧
    (ack.type = MsgTypeACK →
      pendingLookup (handleIncomingAckSweep ack q) ack.id = none ∧
      ∀ j, j ≠ ack.id →
        pendingLookup (handleIncomingAckSweep ack q) j = pendingLookup q j) := by
  refine ⟨?_, ?_,
    fun hm hc => sweepPending_drop_at_cap now q i e hm hc,
    fun hm hc hd => sweepPending_resend_due now q i e hm hc hd,
    fun hm hc hd => sweepPending_keep_not_due now q i e hm hc hd,
    fun hack => ?_⟩
  · intro hra hcr hid
    constructor
    · simp only [sendMessage_true_eq]
      rw [if_neg (fun hcon => hid hcon.1), if_pos ⟨hra, hcr⟩]
    · simpa [Message.clone] using pendingLookup_addPendingMessage now msg p hid
  · intro hra hcr hid hfid
    have hra' : ({ msg with id := fid } : Message).requiresAck = true := by
      simpa [Message.requiresAck] using hra
    have hcr' : ¬ ({ msg with id := fid } : Message).type = MsgTypeCommandResult := hcr
    constructor
    · simp only [sendMessage_true_eq]
      rw [if_pos ⟨hid, hra⟩, if_pos ⟨hra', hcr'⟩]
    · simpa [Message.clone] using
        pendingLookup_addPendingMessage now { msg with id := fid } p (by simpa using hfid)
  · simp only [handleIncomingAckSweep, if_pos hack]
    exact pendingLookup_removePendingMessage ack.id q

/-- Witness for C5 at concrete inputs: the FILESTART message `exMsgFS`
(id "m1") sent at time 0 is recorded pending at count 0; a pending
entry at retry count 2 and elapsed 500 ms (> 400) is re-sent with
count 3; one at the cap of 5 is dropped as failed; and an ACK with
id "m1" removes the recorded entry. -/
theorem c5_retry_daemon_witness :
    (sendMessage 0 [] true exMsgFS [] =
      some (exMsgFS, addPendingMessage 0 exMsgFS []) ∧
     pendingLookup (addPendingMessage 0 exMsgFS []) [109, 49] =
      some { message := exMsgFS, retryCount := 0, lastAttempt := 0 }) ∧
    ([109, 49], exPend 3 500) ∈ (sweepPending 500 [([109, 49], exPend 2 0)]).1 ∧
    [109, 49] ∈ (sweepPending 500 [([109, 49], exPend 5 0)]).2.2 ∧
    pendingLookup (handleIncomingAckSweep { type := MsgTypeACK, data := [], id := [109, 49] }
      [([109, 49], exPend 0 0)]) [109, 49] = none := by
  refine ⟨?_, ?_, ?_, ?_⟩
  · exact (c5_retry_daemon 0 [] exMsgFS [] [] [] (exPend 0 0)
      { type := MsgTypeACK, data := [] }).1 (by decide) (by decide) (by decide)
  · exact ((c5_retry_daemon 500 [] exMsgFS [] [([109, 49], exPend 2 0)] [109, 49]
      (exPend 2 0) { type := MsgTypeACK, data := [] }).2.2.2.1
      (by decide) (by decide) (by decide)).1
  · exact (c5_retry_daemon 500 [] exMsgFS [] [([109, 49], exPend 5 0)] [109, 49]
      (exPend 5 0) { type := MsgTypeACK, data := [] }).2.2.1 (by decide) (by decide)
  · exact ((c5_retry_daemon 0 [] exMsgFS [] [([109, 49], exPend 0 0)] [] (exPend 0 0)
      { type := MsgTypeACK, data := [], id := [109, 49] }).2.2.2.2.2 rfl).1

/-- C2 counterexample: with verification on, a FILEEND for the
registered receive transfer "a" carrying checksum "xx" while the
written bytes hash to "y" takes the mismatch path — yet the transfer
is still present in the registry map afterwards, contradicting the
claim that it is removed.  (`handleFileEnd` returns from the mismatch
branch before its `RemoveTransfer` call.) -/
theorem c2_counterexample :
    exApp1.config.verify = true ∧
    (lookupByName (handleFileEnd (fun _ => [121]) 1
        { type := MsgTypeFileEnd, data := [97, 124, 120, 120] } exApp1).1.transfers
      [97]).isSome = true := by
  constructor
  · rfl
  · decide

/-- C2 (amended): when verification is enabled and a FILEEND for a
registered receive transfer carries a checksum `ck` differing from the
hash of the bytes written to disk, the receiver deletes the partial
destination file, reports the failure to the peer as an ERROR, sets
the transfer's status to Failed (never Complete), and releases the
file handle — but the transfer is *not* removed from the registry: it
remains in the transfer map with status Failed. -/
theorem c2_checksum_mismatch (hash : List Nat → List Nat) (c : Nat)
    (msg : Message) (a : AppState) (t : FileTransfer) (h : Nat)
    (fp ck content : List Nat)
    (hfp : (splitOnByte 124 msg.data).headD [] = fp)
    (hckdef : (splitOnByte 124 msg.data).getD 1 [] = ck)
    (hverify : a.config.verify = true)
    (hfind : a.transfers.find? (fun u => u.conn == c && u.dir == TransferDir.receive &&
      u.name == fp) = some t)
    (hck : ck ≠ [])
    (hfile : t.file = some h)
    (hcontent : fsLookup a.fs (joinPath a.config.folder fp) = some content)
    (hmismatch : hash content ≠ ck) :
    (handleFileEnd hash c msg a).2 = [mkError (txtChecksumFailed ++ fp)] ∧
    fsLookup (handleFileEnd hash c msg a).1.fs (joinPath a.config.folder fp) = none ∧
    (∃ u ∈ (handleFileEnd hash c msg a).1.transfers,
      u.name = t.name ∧ u.status = TransferStatus.failed ∧ u.file = none) ∧
    (∀ u ∈ (handleFileEnd hash c msg a).1.transfers,
      u.name = t.name → u.status = TransferStatus.failed ∧ u.file = none) ∧
    (handleFileEnd hash c msg a).1.closedHandles = a.closedHandles ++ [h] := by
  have hp := List.find?_some hfind
  simp only [Bool.and_eq_true, beq_iff_eq] at hp
  have hmem := List.mem_of_find?_eq_some hfind
  have htn : t.name = fp := hp.2
  simp only [handleFileEnd, hfp, hckdef, hfind, hverify, hck, hcontent, hmismatch,
    hfile, ne_eq, not_false_eq_true, and_self, if_true, true_and]
  refine ⟨?_, ?_, ?_, ?_⟩
  · unfold fsLookup fsRemove
    rw [List.find?_eq_none.mpr]
    · rfl
    · intro u hu
      have := (List.mem_filter.mp hu).2
      simpa using this
  · simp only [updateByName]
    refine ⟨_, List.mem_map.mpr ⟨_, List.mem_map.mpr ⟨t, hmem, rfl⟩, rfl⟩, ?_⟩
    simp [htn]
  · intro u hu hun
    simp only [updateByName, List.mem_map] at hu
    obtain ⟨v, ⟨w, hwmem, hveq⟩, hueq⟩ := hu
    subst hueq
    subst hveq
    by_cases hw : w.name = fp
    · simp [hw]
    · simp only [if_neg hw] at hun ⊢
      rw [htn] at hun
      exact absurd hun hw
  · rfl

/-- Witness for C2 on `exApp1`: FILEEND `"a|xx"` with written bytes
hashing to `"y"` produces exactly one ERROR, deletes `/s/a`, and
leaves the transfer in the registry as Failed with its handle
released. -/
theorem c2_checksum_mismatch_witness :
    (handleFileEnd (fun _ => [121]) 1
      { type := MsgTypeFileEnd, data := [97, 124, 120, 120] } exApp1).2 =
      [mkError (txtChecksumFailed ++ [97])] ∧
    fsLookup (handleFileEnd (fun _ => [121]) 1
      { type := MsgTypeFileEnd, data := [97, 124, 120, 120] } exApp1).1.fs
      (joinPath exApp1.config.folder [97]) = none ∧
    (∃ u ∈ (handleFileEnd (fun _ => [121]) 1
        { type := MsgTypeFileEnd, data := [97, 124, 120, 120] } exApp1).1.transfers,
      u.name = exRecvT.name ∧ u.status = TransferStatus.failed ∧ u.file = none) := by
  have hw := c2_checksum_mismatch (fun _ => [121]) 1
    { type := MsgTypeFileEnd, data := [97, 124, 120, 120] } exApp1 exRecvT 7
    [97] [120, 120] [1, 2, 3]
    (by decide) (by decide) rfl (by decide) (by decide) rfl (by decide) (by decide)
  exact ⟨hw.1, hw.2.1, hw.2.2.1⟩

/-- C4 counterexample: with shared root `/s/share` (working directory
`/c`), the request `../share2/f` resolves to `/s/share2/f`, which
escapes the root — yet `isPathSafe` accepts it, because `/s/share` is
a *string* prefix of `/s/share2/f`.  So the claim that every escaping
resolved path is rejected is false. -/
theorem c4_counterexample :
    escapesRoot
      (absPath [47, 99] (joinPath [47, 115, 47, 115, 104, 97, 114, 101]
        [46, 46, 47, 115, 104, 97, 114, 101, 50, 47, 102]))
      (absPath [47, 99] [47, 115, 47, 115, 104, 97, 114, 101]) = true ∧
    isPathSafe [47, 99] [46, 46, 47, 115, 104, 97, 114, 101, 50, 47, 102]
      [47, 115, 47, 115, 104, 97, 114, 101] = true := by
  constructor
  · decide
  · decide

/-- C4 (amended): `isPathSafe` accepts exactly when the absolute
shared root is a byte-string prefix of the resolved absolute target;
consequently an accepted request resolves either to a path that does
not escape the root (the root itself or strictly below it), or to a
sibling path whose name extends the root's name as a string (e.g.
root `/s/share` and target `/s/share2/f`) — the one family of
escaping paths the check fails to reject.  Every other resolved path
outside the root is rejected. -/
theorem c4_path_safety (cwd req base : List Nat) :
    (isPathSafe cwd req base = true ↔
      ∃ rest, absPath cwd (joinPath base req) = absPath cwd base ++ rest) ∧
    (isPathSafe cwd req base = true →
      escapesRoot (absPath cwd (joinPath base req)) (absPath cwd base) = false ∨
      (∃ rest, absPath cwd (joinPath base req) = absPath cwd base ++ rest ∧
        rest ≠ [] ∧ rest.head? ≠ some sepB)) := by
  have hiff : isPathSafe cwd req base = true ↔
      ∃ rest, absPath cwd (joinPath base req) = absPath cwd base ++ rest := by
    unfold isPathSafe
    exact hasPrefixB_iff _ _
  refine ⟨hiff, ?_⟩
  intro hacc
  obtain ⟨rest, hrest⟩ := hiff.mp hacc
  cases rest with
  | nil =>
    left
    unfold escapesRoot
    simp [hrest]
  | cons b r =>
    by_cases hb : b = sepB
    · left
      unfold escapesRoot
      have : hasPrefixB (absPath cwd (joinPath base req))
          (absPath cwd base ++ [sepB]) = true := by
        apply (hasPrefixB_iff _ _).mpr
        exact ⟨r, by rw [hrest, hb]; simp⟩
      simp [this]
    · right
      exact ⟨b :: r, hrest, List.cons_ne_nil b r, by simpa using hb⟩

/-- Decoding a marshalled object layout: consuming the fixed skeleton
and lexing the three string fields recovers type, escaped data, and
optional id. -/
theorem decodeLine_assemble (ty dt idv : List Nat)
    (hty : ∀ b ∈ ty, jsonCleanByte b) (hdt : ∀ b ∈ dt, jsonTextByte b)
    (hid : ∀ b ∈ idv, jsonCleanByte b) :
    decodeLine (jsonTypeKey ++ (ty ++ (jsonDataKey ++ (escapeJSON dt ++ ([34] ++
      ((if idv ≠ [] then jsonIdKey ++ idv ++ [34] else []) ++ ([] ++ [125]))))))) =
      some { type := ty, data := dt, id := idv } := by
  unfold decodeLine
  rw [expectBytes_append]
  rw [show ∀ X, jsonDataKey ++ X = 34 :: ((jsonDataKey.drop 1) ++ X) from fun _ => rfl]
  simp only [Option.bind_eq_bind, Option.some_bind]
  rw [show ∀ X, ty ++ 34 :: X = ty ++ (34 :: X) from fun _ => rfl]
  rw [lexJSONString_clean ty _ hty]
  simp only [Option.bind_eq_bind, Option.some_bind]
  rw [expectBytes_append]
  simp only [Option.bind_eq_bind, Option.some_bind]
  rw [escapeJSON_eq_flatMap]
  rw [show ∀ X, ([34] : List Nat) ++ X = 34 :: X from fun _ => rfl]
  rw [lexJSONString_escaped dt _ hdt]
  simp only [Option.bind_eq_bind, Option.some_bind]
  by_cases hi : idv = []
  · subst hi
    simp
  · rw [if_pos hi]
    rw [show (jsonIdKey ++ idv ++ [34]) ++ ([] ++ [125]) = jsonIdKey ++ (idv ++ 34 :: [125]) by
      simp]
    rw [if_neg (by simp [jsonIdKey])]
    rw [expectBytes_append]
    simp only [Option.bind_eq_bind, Option.some_bind]
    rw [lexJSONString_clean idv _ hid]
    simp only [Option.bind_eq_bind, Option.some_bind]
    simp

/-- C1 counterexample: for the non-binary message of type MESSAGE
whose data is the single byte 0x08 (backspace), `escapeJSON` leaves
the raw control byte in the emitted line and the JSON decode of that
line fails — `Decode(Encode(m))` yields no message at all, so the
round trip does not hold for every message. -/
theorem c1_counterexample :
    (({ type := MsgTypeMessage, data := [8] } : Message).binary = false) ∧
    decodeLine (Message.marshal { type := MsgTypeMessage, data := [8] }) = none :=
  ⟨rfl, by decide⟩

/-- C1 (amended): for every message whose Type and ID consist of
printable ASCII bytes free of quote and backslash (true of all the
program's type constants and generated ids), decoding the marshalled
line preserves type, data, and id — for a text payload provided the
data consists of printable ASCII plus tab/newline/carriage-return
(bytes the codec escapes; other control bytes and non-ASCII are not
escaped and break the decode, as the counterexample shows), and for
a binary payload of arbitrary bytes, whose base64 round trip
recovers the payload byte-for-byte via `GetBinaryData`. -/
theorem c1_roundtrip (m : Message)
    (hty : ∀ b ∈ m.type, jsonCleanByte b)
    (hid : ∀ b ∈ m.id, jsonCleanByte b) :
    (m.binary = false → (∀ b ∈ m.data, jsonTextByte b) →
      decodeLine m.marshal = some { type := m.type, data := m.data, id := m.id }) ∧
    (m.binary = true → (∀ b ∈ m.data, b < 256) →
      decodeLine m.marshal =
        some { type := m.type, data := base64Encode m.data, id := m.id } ∧
      ({ type := m.type, data := base64Encode m.data, id := m.id } : Message).getBinaryData =
        some m.data) := by
  constructor
  · intro hbin hdt
    have hshape : m.marshal = jsonTypeKey ++ (m.type ++ (jsonDataKey ++
        (escapeJSON m.data ++ ([34] ++ ((if m.id ≠ [] then jsonIdKey ++ m.id ++ [34]
          else []) ++ ([] ++ [125])))))) := by
      simp only [Message.marshal, hbin, Bool.false_eq_true, if_false, List.append_assoc]
    rw [hshape]
    exact decodeLine_assemble m.type m.data m.id hty hdt hid
  · intro hbin hdata
    have hshape : m.marshal = jsonTypeKey ++ (m.type ++ (jsonDataKey ++
        (escapeJSON (base64Encode m.data) ++ ([34] ++ ((if m.id ≠ [] then
          jsonIdKey ++ m.id ++ [34] else []) ++ ([] ++ [125])))))) := by
      simp only [Message.marshal, hbin, if_true, Bool.false_eq_true, if_false,
        List.append_assoc]
    have henc : ∀ b ∈ base64Encode m.data, jsonTextByte b := by
      intro b hb
      have := base64Encode_bounds m.data hdata b hb
      unfold jsonTextByte
      omega
    constructor
    · rw [hshape]
      exact decodeLine_assemble m.type (base64Encode m.data) m.id hty henc hid
    · unfold Message.getBinaryData
      simp only [Bool.false_eq_true, if_false]
      exact base64_roundtrip m.data hdata

/-- Witness for C1 at concrete messages: a text MESSAGE with data
"hi" and id "m1" round-trips intact, and a binary FILEDATA carrying
the bytes 0xFF 0x00 0x08 0x1F round-trips byte-for-byte through
base64. -/
theorem c1_roundtrip_witness :
    decodeLine (Message.marshal { type := MsgTypeMessage, data := [104, 105], id := [109, 49] }) =
      some { type := MsgTypeMessage, data := [104, 105], id := [109, 49] } ∧
    decodeLine (Message.marshal
        { type := MsgTypeFileData, data := [255, 0, 8, 31], binary := true }) =
      some { type := MsgTypeFileData, data := base64Encode [255, 0, 8, 31], id := [] } ∧
    ({ type := MsgTypeFileData, data := base64Encode [255, 0, 8, 31], id := [] } :
      Message).getBinaryData = some [255, 0, 8, 31] := by
  have h1 := (c1_roundtrip { type := MsgTypeMessage, data := [104, 105], id := [109, 49] }
    (by decide) (by decide)).1 rfl (by decide)
  have h2 := (c1_roundtrip { type := MsgTypeFileData, data := [255, 0, 8, 31], binary := true }
    (by decide) (by decide)).2 rfl (by decide)
  exact ⟨h1, h2.1, h2.2⟩

/-- Witness for C4: the in-root request `d` against root `/s` is
accepted and its resolved path `/s/d` does not escape the root. -/
theorem c4_path_safety_witness :
    isPathSafe [47, 99] [100] [47, 115] = true ∧
    (escapesRoot (absPath [47, 99] (joinPath [47, 115] [100]))
        (absPath [47, 99] [47, 115]) = false ∨
      (∃ rest, absPath [47, 99] (joinPath [47, 115] [100]) =
          absPath [47, 99] [47, 115] ++ rest ∧
        rest ≠ [] ∧ rest.head? ≠ some sepB)) :=
  ⟨by decide, (c4_path_safety [47, 99] [100] [47, 115]).2 (by decide)⟩

end ShareGo
